import Mathlib

/-!
Verification of the premiere-pro-folder-watcher core (rust-watcher).

This file shallowly embeds the Rust sources under `src/rust-watcher/src/`
(filter.rs, watcher.rs, server.rs, protocol.rs) as executable Lean
definitions and proves the specification claims about them.

Paths are modelled as strings with `/` as separator, matching the
std::path::Path operations the source uses (`file_name`, `extension`,
components-based root stripping).  Filesystem queries (`exists`, `is_dir`,
`read_dir`) are I/O in the source; they are embedded as an explicit
environment record, and the directory tree walked by the initial scan is
embedded as an inductive tree value.
-/

namespace FolderWatcher

/-- Split a character list on a separator character; mirrors how
std::path splits a path string into components (a single separator char). -/
def splitChar (sep : Char) : List Char → List (List Char)
  | [] => [[]]
  | c :: rest =>
    let r := splitChar sep rest
    if c == sep then [] :: r
    else
      match r with
      | [] => [[c]]
      | g :: gs => (c :: g) :: gs

/-- The raw `/`-separated pieces of a path string. -/
def rawPieces (p : String) : List String :=
  (splitChar '/' p.data).map (fun l => String.mk l)

/-- Normal components of a path: empty pieces and `.` pieces dropped,
as in std::path component normalisation. -/
def normalComponents (p : String) : List String :=
  (rawPieces p).filter (fun s => s != "" && s != ".")

/-- Whether the path is absolute (starts with the root separator). -/
def isAbsolutePath (p : String) : Bool :=
  match p.data with
  | c :: _ => c == '/'
  | [] => false

/-- Path components including a `"/"` marker for the root of an absolute
path (components of a path never contain `/`, so the marker cannot
collide with a normal component). -/
def pathComponents (p : String) : List String :=
  if isAbsolutePath p then "/" :: normalComponents p else normalComponents p

/-- Model of `Path::file_name`: the last normal component, none when the
path ends in `..` or has no normal component. -/
def fileName (p : String) : Option String :=
  match (normalComponents p).getLast? with
  | none => none
  | some c => if c == ".." then none else some c

/-- Whether a file name starts with a dot. -/
def startsWithDot (s : String) : Bool :=
  match s.data with
  | c :: _ => c == '.'
  | [] => false

/-- Model of `Path::extension` restricted to a file name: the part after
the last dot, none when there is no dot or the only dot is leading
(`.gitignore` has no extension, `foo.tar.gz` has extension `gz`,
`foo.` has extension `""`). -/
def extOfFileName (f : String) : Option String :=
  let parts := (splitChar '.' f.data).map (fun l => String.mk l)
  if parts.length ≤ 1 then none
  else if startsWithDot f && parts.length == 2 then none
  else parts.getLast?

/-- Model of `Path::extension` on a full path. -/
def extension (p : String) : Option String :=
  match fileName p with
  | none => none
  | some f => extOfFileName f

/-- ASCII lowercasing of one character; models `str::to_lowercase` on the
inputs that matter here (the extension tables are all ASCII, and the two
functions agree on every ASCII string). -/
def asciiLowerChar (c : Char) : Char :=
  if 'A' ≤ c ∧ c ≤ 'Z' then Char.ofNat (c.toNat + 32) else c

/-- ASCII lowercasing of a string (`to_lowercase` in filter.rs). -/
def toLowercase (s : String) : String :=
  String.mk (s.data.map asciiLowerChar)

/-- VIDEO_EXTENSIONS table from filter.rs. -/
def VIDEO_EXTENSIONS : List String :=
  ["mp4", "mov", "avi", "mkv", "wmv", "flv", "webm", "m4v", "mpg", "mpeg",
   "mxf", "r3d", "braw", "ari"]

/-- AUDIO_EXTENSIONS table from filter.rs. -/
def AUDIO_EXTENSIONS : List String :=
  ["mp3", "wav", "aac", "flac", "ogg", "m4a", "aiff", "aif", "wma"]

/-- IMAGE_EXTENSIONS table from filter.rs. -/
def IMAGE_EXTENSIONS : List String :=
  ["jpg", "jpeg", "png", "gif", "bmp", "tiff", "tif", "psd", "ai", "eps",
   "webp", "exr", "dpx", "tga", "raw", "cr2"]

/-- PROJECT_EXTENSIONS table from filter.rs. -/
def PROJECT_EXTENSIONS : List String :=
  ["prproj", "mogrt", "xml", "aaf", "edl"]

/-- MediaType enum from filter.rs. -/
inductive MediaType where
  | Video
  | Audio
  | Image
  | Project
deriving DecidableEq, Repr

/-- `get_media_type` from filter.rs: look up the lowercased extension in
the four tables in order. -/
def get_media_type (p : String) : Option MediaType :=
  match extension p with
  | none => none
  | some e =>
    let ext := toLowercase e
    if VIDEO_EXTENSIONS.contains ext then some MediaType.Video
    else if AUDIO_EXTENSIONS.contains ext then some MediaType.Audio
    else if IMAGE_EXTENSIONS.contains ext then some MediaType.Image
    else if PROJECT_EXTENSIONS.contains ext then some MediaType.Project
    else none

/-- `is_media_file` from filter.rs. -/
def is_media_file (p : String) : Bool :=
  (get_media_type p).isSome

/-- `is_hidden` from filter.rs: the final path segment begins with `.`. -/
def is_hidden (p : String) : Bool :=
  match fileName p with
  | none => false
  | some name => startsWithDot name

/-- Join path components back into a string with `/` separators. -/
def joinSlash : List String → String
  | [] => ""
  | [s] => s
  | s :: rest => s ++ "/" ++ joinSlash rest

/-- Model of `path.strip_prefix(base).unwrap_or(path).to_string_lossy()`
as used in watcher.rs: component-wise root stripping with the absolute
path itself as fallback when `base` is not a component-wise root of
`path`. -/
def relativeOf (base p : String) : String :=
  let bc := pathComponents base
  let pc := pathComponents p
  if bc.isPrefixOf pc then joinSlash (pc.drop bc.length) else p

/-- WatchInfo from protocol.rs. -/
structure WatchInfo where
  id : String
  path : String
deriving DecidableEq, Repr

/-- Event enum from protocol.rs. -/
inductive Event where
  | FileAdded (watch_id path relative : String)
  | DirAdded (watch_id path relative : String)
  | FileRemoved (watch_id path relative : String)
  | DirRemoved (watch_id path relative : String)
  | Ready (watch_id : String)
  | WatchList (watches : List WatchInfo)
  | Error (message : String) (watch_id : Option String)
deriving DecidableEq, Repr

/-- Command enum from protocol.rs. -/
inductive Command where
  | AddWatch (path id : String)
  | RemoveWatch (id : String)
  | ListWatches
  | Shutdown
deriving DecidableEq, Repr

/-- DebouncedEventKind from notify_debouncer_mini as matched by
watcher.rs (`Any` is a settled change signal, `AnyContinuous` an ongoing
one that the code ignores). -/
inductive DebouncedEventKind where
  | Any
  | AnyContinuous
deriving DecidableEq, Repr

/-- DebouncedEvent from notify_debouncer_mini: a path plus a kind. -/
structure DebouncedEvent where
  path : String
  kind : DebouncedEventKind
deriving DecidableEq, Repr

/-- One entry of a directory tree as seen by the initial scan.  A
directory node carries a `readable` flag: `read_dir` on it succeeds iff
the flag is true (embedding the `std::io::Error` failure of
`std::fs::read_dir`). -/
inductive FsNode where
  | file (name : String)
  | dir (name : String) (readable : Bool) (entries : List FsNode)

/-- The filesystem / notification-source environment the watcher queries:
`pathExists` and `isDir` embed `Path::exists` / `Path::is_dir` at the
moment of the query; `debouncerOk` embeds success of `new_debouncer`;
`watchOk` embeds success of `watcher().watch(path, Recursive)`;
`rootReadable`/`rootEntries` give the `read_dir` result for the watch
root at scan time. -/
structure Env where
  pathExists : String → Bool
  isDir : String → Bool
  debouncerOk : Bool
  watchOk : String → Bool
  rootReadable : String → Bool
  rootEntries : String → List FsNode

/-- Processing of one debounced signal, inlined in
`handle_debounced_events` (watcher.rs lines 164-223): skip hidden paths,
re-check current filesystem state, and emit at most one event. -/
def processSignal (env : Env) (watch_id base : String) (ev : DebouncedEvent) :
    List Event :=
  if is_hidden ev.path then []
  else
    let relative := relativeOf base ev.path
    let full_path := ev.path
    match ev.kind with
    | DebouncedEventKind.Any =>
      if env.pathExists ev.path then
        if env.isDir ev.path then
          [Event.DirAdded watch_id full_path relative]
        else if is_media_file ev.path then
          [Event.FileAdded watch_id full_path relative]
        else []
      else if is_media_file ev.path then
        [Event.FileRemoved watch_id full_path relative]
      else
        [Event.DirRemoved watch_id full_path relative]
    | DebouncedEventKind.AnyContinuous => []

/-- `handle_debounced_events` from watcher.rs: on a batch, process each
signal in order; on a notification-source error, emit an Error event
tagged with the watch id.  The returned list is what is sent on the
event channel. -/
def handle_debounced_events (env : Env) (watch_id base : String)
    (res : Except String (List DebouncedEvent)) : List Event :=
  match res with
  | Except.ok events => events.foldr (fun ev acc => processSignal env watch_id base ev ++ acc) []
  | Except.error e => [Event.Error ("Watch error: " ++ e) (some watch_id)]

/-- `scan_directory_recursive` from watcher.rs, as a walk over the
entries of the current directory.  Returns the events sent (in sending
order) and whether an io error aborted the walk (the `?` propagation):
a hidden entry is skipped without descending; a directory entry first
sends DirAdded and then recurses, and an unreadable subdirectory makes
the recursive `read_dir` fail, stopping the walk after the DirAdded
already sent; a non-hidden media file sends FileAdded; other files send
nothing. -/
def scanEntries (watch_id base : String) (cur : String) :
    List FsNode → List Event × Bool
  | [] => ([], false)
  | FsNode.file name :: rest =>
    let path := cur ++ "/" ++ name
    if is_hidden path then scanEntries watch_id base cur rest
    else if is_media_file path then
      let (evs, err) := scanEntries watch_id base cur rest
      (Event.FileAdded watch_id path (relativeOf base path) :: evs, err)
    else scanEntries watch_id base cur rest
  | FsNode.dir name readable entries :: rest =>
    let path := cur ++ "/" ++ name
    if is_hidden path then scanEntries watch_id base cur rest
    else
      let ev := Event.DirAdded watch_id path (relativeOf base path)
      if readable then
        let (sub, suberr) := scanEntries watch_id base path entries
        if suberr then (ev :: sub, true)
        else
          let (evs, err) := scanEntries watch_id base cur rest
          (ev :: sub ++ evs, err)
      else ([ev], true)

/-- `scan_directory_recursive` applied to the watch root: `read_dir` on
the root itself may also fail. -/
def scanRoot (watch_id base : String) (rootReadable : Bool)
    (entries : List FsNode) : List Event × Bool :=
  if rootReadable then scanEntries watch_id base base entries
  else ([], true)

/-- `scan_existing_files` from watcher.rs: run the recursive scan and
swallow any io error (the source only logs it with `error!`; no event is
produced for it). -/
def scan_existing_files (watch_id base : String) (rootReadable : Bool)
    (entries : List FsNode) : List Event :=
  (scanRoot watch_id base rootReadable entries).1

/-- The watch registry: id to root path.  `WatchManager.watches` is a
HashMap whose values also hold the live debouncer; the subscription
handle has no observable structure here beyond its liveness, so an entry
is modelled by its id and path, in insertion order. -/
def Registry := List (String × String)

/-- HashMap `contains_key` / lookup on the registry model. -/
def lookupReg : List (String × String) → String → Option String
  | [], _ => none
  | (i, p) :: rest, id => if i == id then some p else lookupReg rest id

/-- HashMap `remove` on the registry model (keys are unique in every
registry reachable through `add_watch`, which refuses duplicates). -/
def removeKey : List (String × String) → String → List (String × String)
  | [], _ => []
  | (i, p) :: rest, id => if i == id then rest else (i, p) :: removeKey rest id

/-- The error cases of `WatchManager::add_watch` (watcher.rs lines
33-64), one constructor per `Err` site in source order; the source
carries formatted message strings, abstracted to their kind here. -/
inductive AddError where
  | Conflict
  | NotFound
  | NotADirectory
  | SubscriptionFailed
deriving DecidableEq, Repr

/-- Result of one `add_watch` call: the returned Result, the registry
afterwards, and the events sent on the channel during the call, in
order. -/
structure AddResult where
  result : Except AddError Unit
  registry : List (String × String)
  events : List Event
deriving Repr

/-- `WatchManager::add_watch` from watcher.rs: duplicate-id check, path
existence check, directory check, debouncer creation, watch
subscription; on success insert the entry, send Ready, then run the
initial scan. -/
def add_watch (env : Env) (reg : List (String × String)) (id path : String) :
    AddResult :=
  if (lookupReg reg id).isSome then
    ⟨Except.error AddError.Conflict, reg, []⟩
  else if !(env.pathExists path) then
    ⟨Except.error AddError.NotFound, reg, []⟩
  else if !(env.isDir path) then
    ⟨Except.error AddError.NotADirectory, reg, []⟩
  else if !env.debouncerOk then
    ⟨Except.error AddError.SubscriptionFailed, reg, []⟩
  else if !(env.watchOk path) then
    ⟨Except.error AddError.SubscriptionFailed, reg, []⟩
  else
    ⟨Except.ok (), reg ++ [(id, path)],
      Event.Ready id ::
        scan_existing_files id path (env.rootReadable path) (env.rootEntries path)⟩

/-- `WatchManager::remove_watch` from watcher.rs: drop the entry (and
with it the debouncer subscription) when present, NotFound otherwise.
Returns the Result and the registry afterwards. -/
def remove_watch (reg : List (String × String)) (id : String) :
    Except Unit Unit × List (String × String) :=
  match lookupReg reg id with
  | some _ => (Except.ok (), removeKey reg id)
  | none => (Except.error (), reg)

/-- `WatchManager::list_watches` from watcher.rs. -/
def list_watches (reg : List (String × String)) : List WatchInfo :=
  reg.map (fun e => ⟨e.1, e.2⟩)

/-- JSON values as far as the wire protocol needs them (every field of
every Command/Event variant is a string, an array, or an object). -/
inductive Json where
  | str (s : String)
  | arr (xs : List Json)
  | obj (fields : List (String × Json))

/-- First field with the given key in a JSON object's field list. -/
def getField : List (String × Json) → String → Option Json
  | [], _ => none
  | (k, v) :: rest, key => if k == key then some v else getField rest key

/-- Extract a JSON string. -/
def asStr : Json → Option String
  | Json.str s => some s
  | _ => none

/-- Whether an encoded object carries a field with the given key. -/
def hasKey (j : Json) (key : String) : Bool :=
  match j with
  | Json.obj fields => (getField fields key).isSome
  | _ => false

/-- serde serialisation of `Command` (internally tagged with `cmd`,
SCREAMING_SNAKE_CASE variant names, fields in declaration order). -/
def encodeCommand : Command → Json
  | Command.AddWatch path id =>
    Json.obj [("cmd", Json.str "ADD_WATCH"), ("path", Json.str path),
              ("id", Json.str id)]
  | Command.RemoveWatch id =>
    Json.obj [("cmd", Json.str "REMOVE_WATCH"), ("id", Json.str id)]
  | Command.ListWatches => Json.obj [("cmd", Json.str "LIST_WATCHES")]
  | Command.Shutdown => Json.obj [("cmd", Json.str "SHUTDOWN")]

/-- serde deserialisation of `Command`: dispatch on the `cmd` tag, then
read the variant's fields. -/
def decodeCommand (j : Json) : Option Command :=
  match j with
  | Json.obj fields =>
    match (getField fields "cmd").bind asStr with
    | some "ADD_WATCH" =>
      match (getField fields "path").bind asStr,
            (getField fields "id").bind asStr with
      | some path, some id => some (Command.AddWatch path id)
      | _, _ => none
    | some "REMOVE_WATCH" =>
      match (getField fields "id").bind asStr with
      | some id => some (Command.RemoveWatch id)
      | none => none
    | some "LIST_WATCHES" => some Command.ListWatches
    | some "SHUTDOWN" => some Command.Shutdown
    | _ => none
  | _ => none

/-- serde serialisation of `WatchInfo`. -/
def encodeWatchInfo (w : WatchInfo) : Json :=
  Json.obj [("id", Json.str w.id), ("path", Json.str w.path)]

/-- serde deserialisation of `WatchInfo`. -/
def decodeWatchInfo (j : Json) : Option WatchInfo :=
  match j with
  | Json.obj fields =>
    match (getField fields "id").bind asStr,
          (getField fields "path").bind asStr with
    | some id, some path => some ⟨id, path⟩
    | _, _ => none
  | _ => none

/-- Deserialise a JSON array of WatchInfo objects. -/
def decodeWatchInfoList : List Json → Option (List WatchInfo)
  | [] => some []
  | j :: rest =>
    match decodeWatchInfo j, decodeWatchInfoList rest with
    | some w, some ws => some (w :: ws)
    | _, _ => none

/-- serde serialisation of `Event` (internally tagged with `event`); the
`watch_id` field of Error is omitted entirely when the option is none
(`skip_serializing_if = Option::is_none`). -/
def encodeEvent : Event → Json
  | Event.FileAdded wid path rel =>
    Json.obj [("event", Json.str "FILE_ADDED"), ("watch_id", Json.str wid),
              ("path", Json.str path), ("relative", Json.str rel)]
  | Event.DirAdded wid path rel =>
    Json.obj [("event", Json.str "DIR_ADDED"), ("watch_id", Json.str wid),
              ("path", Json.str path), ("relative", Json.str rel)]
  | Event.FileRemoved wid path rel =>
    Json.obj [("event", Json.str "FILE_REMOVED"), ("watch_id", Json.str wid),
              ("path", Json.str path), ("relative", Json.str rel)]
  | Event.DirRemoved wid path rel =>
    Json.obj [("event", Json.str "DIR_REMOVED"), ("watch_id", Json.str wid),
              ("path", Json.str path), ("relative", Json.str rel)]
  | Event.Ready wid =>
    Json.obj [("event", Json.str "READY"), ("watch_id", Json.str wid)]
  | Event.WatchList ws =>
    Json.obj [("event", Json.str "WATCH_LIST"),
              ("watches", Json.arr (ws.map encodeWatchInfo))]
  | Event.Error msg wid =>
    Json.obj (("event", Json.str "ERROR") :: ("message", Json.str msg) ::
      (match wid with
       | some w => [("watch_id", Json.str w)]
       | none => []))

/-- serde deserialisation of `Event`: dispatch on the `event` tag; the
optional `watch_id` of Error is none exactly when the field is absent. -/
def decodeEvent (j : Json) : Option Event :=
  match j with
  | Json.obj fields =>
    match (getField fields "event").bind asStr with
    | some "FILE_ADDED" =>
      match (getField fields "watch_id").bind asStr,
            (getField fields "path").bind asStr,
            (getField fields "relative").bind asStr with
      | some w, some p, some r => some (Event.FileAdded w p r)
      | _, _, _ => none
    | some "DIR_ADDED" =>
      match (getField fields "watch_id").bind asStr,
            (getField fields "path").bind asStr,
            (getField fields "relative").bind asStr with
      | some w, some p, some r => some (Event.DirAdded w p r)
      | _, _, _ => none
    | some "FILE_REMOVED" =>
      match (getField fields "watch_id").bind asStr,
            (getField fields "path").bind asStr,
            (getField fields "relative").bind asStr with
      | some w, some p, some r => some (Event.FileRemoved w p r)
      | _, _, _ => none
    | some "DIR_REMOVED" =>
      match (getField fields "watch_id").bind asStr,
            (getField fields "path").bind asStr,
            (getField fields "relative").bind asStr with
      | some w, some p, some r => some (Event.DirRemoved w p r)
      | _, _, _ => none
    | some "READY" =>
      match (getField fields "watch_id").bind asStr with
      | some w => some (Event.Ready w)
      | none => none
    | some "WATCH_LIST" =>
      match getField fields "watches" with
      | some (Json.arr xs) =>
        match decodeWatchInfoList xs with
        | some ws => some (Event.WatchList ws)
        | none => none
      | _ => none
    | some "ERROR" =>
      match (getField fields "message").bind asStr with
      | some msg =>
        match getField fields "watch_id" with
        | none => some (Event.Error msg none)
        | some v =>
          match asStr v with
          | some w => some (Event.Error msg (some w))
          | none => none
      | none => none
    | _ => none
  | _ => none

/-- Error message for a failed `add_watch`, following the message stems
the source formats (quoting of the interpolated id/path omitted). -/
def addErrorMessage (id path : String) : AddError → String
  | AddError.Conflict => "Watch with id " ++ id ++ " already exists"
  | AddError.NotFound => "Path does not exist: " ++ path
  | AddError.NotADirectory => "Path is not a directory: " ++ path
  | AddError.SubscriptionFailed => "Failed to establish watch"

/-- Result of one `handle_command` dispatch: registry afterwards, the
events sent on the channel, and whether the shutdown flag was set. -/
structure CommandResult where
  registry : List (String × String)
  events : List Event
  shutdown : Bool
deriving Repr

/-- `handle_command` from server.rs, over an already framed JSON value
(the wire text has been parsed; serde decode failure is a `none` from
`decodeCommand`): a decode failure emits an Error event with no watch
id; a failed add or remove emits an Error event tagged with the id; a
list emits WatchList; Shutdown sets the shutdown flag. -/
def handle_command (env : Env) (reg : List (String × String)) (j : Json) :
    CommandResult :=
  match decodeCommand j with
  | none => ⟨reg, [Event.Error "Invalid command" none], false⟩
  | some (Command.AddWatch path id) =>
    let r := add_watch env reg id path
    match r.result with
    | Except.ok () => ⟨r.registry, r.events, false⟩
    | Except.error e =>
      ⟨r.registry, r.events ++ [Event.Error (addErrorMessage id path e) (some id)],
        false⟩
  | some (Command.RemoveWatch id) =>
    match remove_watch reg id with
    | (Except.ok (), reg') => ⟨reg', [], false⟩
    | (Except.error (), reg') =>
      ⟨reg', [Event.Error ("Watch with id " ++ id ++ " not found") (some id)],
        false⟩
  | some Command.ListWatches =>
    ⟨reg, [Event.WatchList (list_watches reg)], false⟩
  | some Command.Shutdown => ⟨reg, [], true⟩

/-- `event_sender_loop` from server.rs, in the steady state (shutdown
flag unset, transport open): every event received from the channel is
serialised and written as one frame.  The loop consults only the
channel; it never reads the watch registry. -/
def event_sender_loop (queue : List Event) : List Json :=
  queue.map encodeEvent

/-- Whether an event is one the initial scan can produce. -/
def isScanAdd : Event → Bool
  | Event.DirAdded _ _ _ => true
  | Event.FileAdded _ _ _ => true
  | _ => false

/-- Whether an event is an Error event. -/
def isErrorEvent : Event → Bool
  | Event.Error _ _ => true
  | _ => false

/-- Every directory in the tree is readable (`read_dir` never fails). -/
def allReadable : List FsNode → Bool
  | [] => true
  | FsNode.file _ :: rest => allReadable rest
  | FsNode.dir _ r entries :: rest => r && allReadable entries && allReadable rest

/-- Modelled from the spec: the event sequence the initial scan is
required to emit — depth-first over the tree, a DirAdded for every
non-hidden directory (descending into it), a FileAdded for every
non-hidden media file, and nothing for hidden entries (not descended
into) or non-media files. -/
def specScanEntries (watch_id base cur : String) : List FsNode → List Event
  | [] => []
  | FsNode.file name :: rest =>
    let path := cur ++ "/" ++ name
    (if !(is_hidden path) && is_media_file path then
       [Event.FileAdded watch_id path (relativeOf base path)]
     else []) ++
    specScanEntries watch_id base cur rest
  | FsNode.dir name _ entries :: rest =>
    let path := cur ++ "/" ++ name
    (if is_hidden path then []
     else Event.DirAdded watch_id path (relativeOf base path) ::
       specScanEntries watch_id base path entries) ++
    specScanEntries watch_id base cur rest

/-- An environment where every path exists, is a directory, and every
subscription attempt succeeds; watch roots are empty directories. -/
def envAllTrue : Env :=
  { pathExists := fun _ => true
    isDir := fun _ => true
    debouncerOk := true
    watchOk := fun _ => true
    rootReadable := fun _ => true
    rootEntries := fun _ => [] }

/-- An environment where no path exists. -/
def envMissing : Env :=
  { pathExists := fun _ => false
    isDir := fun _ => false
    debouncerOk := true
    watchOk := fun _ => true
    rootReadable := fun _ => true
    rootEntries := fun _ => [] }

/-- A directory listing with one hidden file, one non-media file, and
one media file (the spec's scan test scenario). -/
def demoEntries : List FsNode :=
  [FsNode.file ".DS_Store", FsNode.file "notes.txt", FsNode.file "clip.mp4"]

/-- An environment where every path exists as a directory and watches
can be established, but `read_dir` fails on every directory. -/
def envUnreadable : Env :=
  { pathExists := fun _ => true
    isDir := fun _ => true
    debouncerOk := true
    watchOk := fun _ => true
    rootReadable := fun _ => false
    rootEntries := fun _ => [] }

/-- An environment where every path exists as a readable directory whose
listing is `demoEntries`. -/
def envDemo : Env :=
  { pathExists := fun _ => true
    isDir := fun _ => true
    debouncerOk := true
    watchOk := fun _ => true
    rootReadable := fun _ => true
    rootEntries := fun _ => demoEntries }

/-! ## Helper lemmas -/

theorem contains_false_of_disjoint {l₁ l₂ : List String}
    (hd : l₁.all (fun s => !(l₂.contains s)) = true) {x : String}
    (h : l₁.contains x = true) : l₂.contains x = false := by
  have hx : x ∈ l₁ := by simpa using h
  have hpx := List.all_eq_true.mp hd x hx
  simpa using hpx

theorem video_audio_disj :
    VIDEO_EXTENSIONS.all (fun s => !(AUDIO_EXTENSIONS.contains s)) = true := by
  decide

theorem video_image_disj :
    VIDEO_EXTENSIONS.all (fun s => !(IMAGE_EXTENSIONS.contains s)) = true := by
  decide

theorem video_project_disj :
    VIDEO_EXTENSIONS.all (fun s => !(PROJECT_EXTENSIONS.contains s)) = true := by
  decide

theorem audio_image_disj :
    AUDIO_EXTENSIONS.all (fun s => !(IMAGE_EXTENSIONS.contains s)) = true := by
  decide

theorem audio_project_disj :
    AUDIO_EXTENSIONS.all (fun s => !(PROJECT_EXTENSIONS.contains s)) = true := by
  decide

theorem image_project_disj :
    IMAGE_EXTENSIONS.all (fun s => !(PROJECT_EXTENSIONS.contains s)) = true := by
  decide

theorem scan_only_adds (watch_id base : String) :
    ∀ (cur : String) (ns : List FsNode),
      ∀ e ∈ (scanEntries watch_id base cur ns).1, isScanAdd e = true := by
  intro cur ns
  induction cur, ns using scanEntries.induct watch_id base with
  | case1 cur => simp [scanEntries]
  | case2 cur name rest path hhid ih =>
    simpa [scanEntries, hhid] using ih
  | case3 cur name rest path hhid hmedia evs err heq ih =>
    intro e he
    simp [scanEntries, hhid, hmedia, heq] at he
    rcases he with rfl | he
    · rfl
    · exact ih e (by simp [heq, he])
  | case4 cur name rest path hhid hmedia ih =>
    simpa [scanEntries, hhid, hmedia] using ih
  | case5 cur name readable entries rest path hhid ih =>
    simpa [scanEntries, hhid] using ih
  | case6 cur name entries rest path hhid evs heq ih =>
    intro e he
    simp [scanEntries, hhid, heq] at he
    rcases he with rfl | he
    · rfl
    · exact ih e (by simp [heq, he])
  | case7 cur name entries rest path hhid evs err heq herr evs2 err2 heq2 ih1 ih2 =>
    intro e he
    simp [scanEntries, hhid, heq, herr, heq2] at he
    rcases he with rfl | he | he
    · rfl
    · exact ih1 e (by simp [heq, he])
    · exact ih2 e (by simp [heq2, he])
  | case8 cur name readable entries rest path hhid hread =>
    intro e he
    simp [scanEntries, hhid, hread] at he
    rcases he with rfl
    rfl

theorem scan_refines_spec (watch_id base : String) :
    ∀ (cur : String) (ns : List FsNode), allReadable ns = true →
      scanEntries watch_id base cur ns =
        (specScanEntries watch_id base cur ns, false) := by
  intro cur ns
  induction cur, ns using scanEntries.induct watch_id base with
  | case1 cur => simp [scanEntries, specScanEntries]
  | case2 cur name rest path hhid ih =>
    intro hr
    have hr' : allReadable rest = true := by simpa [allReadable] using hr
    simp [scanEntries, specScanEntries, hhid, ih hr']
  | case3 cur name rest path hhid hmedia evs err heq ih =>
    intro hr
    have hr' : allReadable rest = true := by simpa [allReadable] using hr
    have hs := ih hr'
    rw [heq] at hs
    injection hs with h1 h2
    subst h1; subst h2
    simp [scanEntries, specScanEntries, hhid, hmedia, heq]
  | case4 cur name rest path hhid hmedia ih =>
    intro hr
    have hr' : allReadable rest = true := by simpa [allReadable] using hr
    simp [scanEntries, specScanEntries, hhid, hmedia, ih hr']
  | case5 cur name readable entries rest path hhid ih =>
    intro hr
    have hr' : allReadable rest = true := by
      simp [allReadable] at hr
      exact hr.2
    simp [scanEntries, specScanEntries, hhid, ih hr']
  | case6 cur name entries rest path hhid evs heq ih =>
    intro hr
    have hr' : allReadable entries = true := by
      simp [allReadable] at hr
      exact hr.1
    have hs := ih hr'
    rw [heq] at hs
    injection hs with h1 h2
    cases h2
  | case7 cur name entries rest path hhid evs err heq herr evs2 err2 heq2 ih1 ih2 =>
    intro hr
    simp [allReadable] at hr
    have hsub := ih1 hr.1
    have hrest := ih2 hr.2
    rw [heq] at hsub
    rw [heq2] at hrest
    injection hsub with hsub1 hsub2
    injection hrest with hrest1 hrest2
    subst hsub1; subst hsub2; subst hrest1; subst hrest2
    simp [scanEntries, specScanEntries, hhid, heq, heq2]
  | case8 cur name readable entries rest path hhid hread =>
    intro hr
    simp [allReadable] at hr
    exact absurd hr.1.1 hread

theorem scan_existing_only_adds (watch_id base : String) (r : Bool)
    (ns : List FsNode) :
    ∀ e ∈ scan_existing_files watch_id base r ns, isScanAdd e = true := by
  intro e he
  cases r with
  | true =>
    exact scan_only_adds watch_id base base ns e
      (by simpa [scan_existing_files, scanRoot] using he)
  | false => simp [scan_existing_files, scanRoot] at he

theorem add_watch_ok_shape (env : Env) (reg : List (String × String))
    (id path : String)
    (hok : (add_watch env reg id path).result = Except.ok ()) :
    (add_watch env reg id path).events =
      Event.Ready id ::
        scan_existing_files id path (env.rootReadable path)
          (env.rootEntries path) ∧
    (add_watch env reg id path).registry = reg ++ [(id, path)] := by
  by_cases h1 : (lookupReg reg id).isSome = true <;>
  by_cases h2 : env.pathExists path = true <;>
  by_cases h3 : env.isDir path = true <;>
  by_cases h4 : env.debouncerOk = true <;>
  by_cases h5 : env.watchOk path = true <;>
  simp_all [add_watch]

/-! ## Claim theorems -/

/-- C1: for every debounced change signal (a settled `Any` signal) on a
non-hidden path, the event pipeline re-checks current filesystem state
and emits: DirAdded when the path exists and is a directory; FileAdded
when it exists, is not a directory, and classifies as media; FileRemoved
when it does not exist and classifies as media by extension; DirRemoved
when it does not exist and does not classify as media; and no event at
all for a still-existing non-media non-directory path.  The four
conditions are the ordered case split of `handle_debounced_events`. -/
theorem c1_pipeline_recheck (env : Env) (watch_id base p : String)
    (hh : is_hidden p = false) :
    (env.pathExists p = true → env.isDir p = true →
      handle_debounced_events env watch_id base
          (Except.ok [⟨p, DebouncedEventKind.Any⟩]) =
        [Event.DirAdded watch_id p (relativeOf base p)]) ∧
    (env.pathExists p = true → env.isDir p = false → is_media_file p = true →
      handle_debounced_events env watch_id base
          (Except.ok [⟨p, DebouncedEventKind.Any⟩]) =
        [Event.FileAdded watch_id p (relativeOf base p)]) ∧
    (env.pathExists p = false → is_media_file p = true →
      handle_debounced_events env watch_id base
          (Except.ok [⟨p, DebouncedEventKind.Any⟩]) =
        [Event.FileRemoved watch_id p (relativeOf base p)]) ∧
    (env.pathExists p = false → is_media_file p = false →
      handle_debounced_events env watch_id base
          (Except.ok [⟨p, DebouncedEventKind.Any⟩]) =
        [Event.DirRemoved watch_id p (relativeOf base p)]) ∧
    (env.pathExists p = true → env.isDir p = false → is_media_file p = false →
      handle_debounced_events env watch_id base
          (Except.ok [⟨p, DebouncedEventKind.Any⟩]) = []) := by
  refine ⟨?_, ?_, ?_, ?_, ?_⟩
  · intro h1 h2
    simp [handle_debounced_events, processSignal, hh, h1, h2]
  · intro h1 h2 h3
    simp [handle_debounced_events, processSignal, hh, h1, h2, h3]
  · intro h1 h2
    simp [handle_debounced_events, processSignal, hh, h1, h2]
  · intro h1 h2
    simp [handle_debounced_events, processSignal, hh, h1, h2]
  · intro h1 h2 h3
    simp [handle_debounced_events, processSignal, hh, h1, h2, h3]

/-- C1 witness: in an environment where every path exists as a
directory, a settled signal on `/root/sub` yields one DirAdded with
relative path `sub`; and in an environment where no path exists, a
signal on a deleted `/root/clip.mp4` yields one FileRemoved. -/
theorem c1_pipeline_recheck_witness :
    handle_debounced_events envAllTrue "w" "/root"
        (Except.ok [⟨"/root/sub", DebouncedEventKind.Any⟩]) =
      [Event.DirAdded "w" "/root/sub" "sub"] ∧
    handle_debounced_events envMissing "w" "/root"
        (Except.ok [⟨"/root/clip.mp4", DebouncedEventKind.Any⟩]) =
      [Event.FileRemoved "w" "/root/clip.mp4" "clip.mp4"] :=
  ⟨((c1_pipeline_recheck envAllTrue "w" "/root" "/root/sub" (by decide)).1
      rfl rfl).trans (by decide),
   ((c1_pipeline_recheck envMissing "w" "/root" "/root/clip.mp4"
      (by decide)).2.2.1 rfl (by decide)).trans (by decide)⟩

/-- C2: for every path whose extension, compared case-insensitively, is
in one of the four fixed tables, `get_media_type` returns exactly that
table's category; for every path with no extension or an extension
absent from all tables, it returns none. -/
theorem c2_classifier_tables (p : String) :
    (extension p = none → get_media_type p = none) ∧
    (∀ e, extension p = some e →
      (get_media_type p = some MediaType.Video ↔
        VIDEO_EXTENSIONS.contains (toLowercase e) = true) ∧
      (get_media_type p = some MediaType.Audio ↔
        AUDIO_EXTENSIONS.contains (toLowercase e) = true) ∧
      (get_media_type p = some MediaType.Image ↔
        IMAGE_EXTENSIONS.contains (toLowercase e) = true) ∧
      (get_media_type p = some MediaType.Project ↔
        PROJECT_EXTENSIONS.contains (toLowercase e) = true) ∧
      (get_media_type p = none ↔
        (VIDEO_EXTENSIONS.contains (toLowercase e) ||
         AUDIO_EXTENSIONS.contains (toLowercase e) ||
         IMAGE_EXTENSIONS.contains (toLowercase e) ||
         PROJECT_EXTENSIONS.contains (toLowercase e)) = false)) := by
  constructor
  · intro h
    simp [get_media_type, h]
  · intro e he
    cases hv : VIDEO_EXTENSIONS.contains (toLowercase e) with
    | true =>
      have ha := contains_false_of_disjoint video_audio_disj hv
      have hi := contains_false_of_disjoint video_image_disj hv
      have hp := contains_false_of_disjoint video_project_disj hv
      have hv' : toLowercase e ∈ VIDEO_EXTENSIONS := by simpa using hv
      have ha' : toLowercase e ∉ AUDIO_EXTENSIONS := by simpa using ha
      have hi' : toLowercase e ∉ IMAGE_EXTENSIONS := by simpa using hi
      have hp' : toLowercase e ∉ PROJECT_EXTENSIONS := by simpa using hp
      simp [get_media_type, he, hv, ha, hi, hp, hv', ha', hi', hp']
    | false =>
      have hv' : toLowercase e ∉ VIDEO_EXTENSIONS := by simpa using hv
      cases ha : AUDIO_EXTENSIONS.contains (toLowercase e) with
      | true =>
        have hi := contains_false_of_disjoint audio_image_disj ha
        have hp := contains_false_of_disjoint audio_project_disj ha
        have ha' : toLowercase e ∈ AUDIO_EXTENSIONS := by simpa using ha
        have hi' : toLowercase e ∉ IMAGE_EXTENSIONS := by simpa using hi
        have hp' : toLowercase e ∉ PROJECT_EXTENSIONS := by simpa using hp
        simp [get_media_type, he, hv, ha, hi, hp, hv', ha', hi', hp']
      | false =>
        have ha' : toLowercase e ∉ AUDIO_EXTENSIONS := by simpa using ha
        cases hi : IMAGE_EXTENSIONS.contains (toLowercase e) with
        | true =>
          have hp := contains_false_of_disjoint image_project_disj hi
          have hi' : toLowercase e ∈ IMAGE_EXTENSIONS := by simpa using hi
          have hp' : toLowercase e ∉ PROJECT_EXTENSIONS := by simpa using hp
          simp [get_media_type, he, hv, ha, hi, hp, hv', ha', hi', hp']
        | false =>
          have hi' : toLowercase e ∉ IMAGE_EXTENSIONS := by simpa using hi
          cases hp : PROJECT_EXTENSIONS.contains (toLowercase e) with
          | true =>
            have hp' : toLowercase e ∈ PROJECT_EXTENSIONS := by simpa using hp
            simp [get_media_type, he, hv, ha, hi, hp, hv', ha', hi', hp']
          | false =>
            have hp' : toLowercase e ∉ PROJECT_EXTENSIONS := by simpa using hp
            simp [get_media_type, he, hv, ha, hi, hp, hv', ha', hi', hp']

/-- C2 witness: `/media/clip.MP4` has extension `MP4` and classifies as
Video, via the claim theorem at that input. -/
theorem c2_classifier_tables_witness :
    extension "/media/clip.MP4" = some "MP4" ∧
    get_media_type "/media/clip.MP4" = some MediaType.Video :=
  ⟨by decide,
    ((c2_classifier_tables "/media/clip.MP4").2 "MP4" (by decide)).1.mpr
      (by decide)⟩


/-- C3: `add_watch` fails with Conflict when the id is already present,
NotFound when the path does not exist, NotADirectory when it exists but
is not a directory, and SubscriptionFailed when the notification source
cannot establish a watch (debouncer creation or the watch call fails);
on every failing call the registry is unchanged and no event (Ready or
scan-derived) is sent. -/
theorem c3_add_watch_failures (env : Env) (reg : List (String × String))
    (id path : String) :
    ((lookupReg reg id).isSome = true →
      add_watch env reg id path =
        ⟨Except.error AddError.Conflict, reg, []⟩) ∧
    (lookupReg reg id = none → env.pathExists path = false →
      add_watch env reg id path =
        ⟨Except.error AddError.NotFound, reg, []⟩) ∧
    (lookupReg reg id = none → env.pathExists path = true →
      env.isDir path = false →
      add_watch env reg id path =
        ⟨Except.error AddError.NotADirectory, reg, []⟩) ∧
    (lookupReg reg id = none → env.pathExists path = true →
      env.isDir path = true →
      (env.debouncerOk = false ∨ env.watchOk path = false) →
      add_watch env reg id path =
        ⟨Except.error AddError.SubscriptionFailed, reg, []⟩) := by
  refine ⟨?_, ?_, ?_, ?_⟩
  · intro h1
    simp [add_watch, h1]
  · intro h1 h2
    simp [add_watch, h1, h2]
  · intro h1 h2 h3
    simp [add_watch, h1, h2, h3]
  · intro h1 h2 h3 h4
    rcases h4 with h4 | h4
    · simp [add_watch, h1, h2, h3, h4]
    · cases hd : env.debouncerOk <;> simp [add_watch, h1, h2, h3, h4, hd]

/-- C3 witness: adding watch `a` on the non-existent path `/missing`
fails with NotFound, leaves the registry empty, and sends no event. -/
theorem c3_add_watch_failures_witness :
    add_watch envMissing [] "a" "/missing" =
      ⟨Except.error AddError.NotFound, [], []⟩ :=
  (c3_add_watch_failures envMissing [] "a" "/missing").2.1 rfl rfl

/-- C4: `remove_watch` of an id not present fails with NotFound and
leaves the registry unchanged; of a present id it succeeds and removes
exactly that entry; and listing after adding watches A and B and
removing A returns exactly B. -/
theorem c4_remove_and_list (reg : List (String × String)) (id : String) :
    (lookupReg reg id = none →
      remove_watch reg id = (Except.error (), reg)) ∧
    ((lookupReg reg id).isSome = true →
      remove_watch reg id = (Except.ok (), removeKey reg id)) ∧
    (∀ a pa b pb : String, a ≠ b →
      list_watches
        (remove_watch
          (add_watch envAllTrue (add_watch envAllTrue [] a pa).registry
            b pb).registry a).2 = [⟨b, pb⟩]) := by
  refine ⟨?_, ?_, ?_⟩
  · intro h
    simp [remove_watch, h]
  · intro h
    rcases hl : lookupReg reg id with _ | p
    · rw [hl] at h
      cases h
    · simp [remove_watch, hl]
  · intro a pa b pb hab
    have hba : (a == b) = false := by simpa using hab
    simp [add_watch, remove_watch, list_watches, lookupReg, removeKey,
      envAllTrue, hba]

/-- C4 witness: removing from an empty registry fails, and the add-A,
add-B, remove-A scenario lists exactly B, via the claim theorem. -/
theorem c4_remove_and_list_witness :
    remove_watch [] "missing" = (Except.error (), []) ∧
    list_watches
      (remove_watch
        (add_watch envAllTrue (add_watch envAllTrue [] "A" "/a").registry
          "B" "/b").registry "A").2 = [⟨"B", "/b"⟩] :=
  ⟨(c4_remove_and_list [] "missing").1 rfl,
   (c4_remove_and_list [] "missing").2.2 "A" "/a" "B" "/b" (by decide)⟩

/-- C5: on every successful `add_watch` the Ready event is the first
event sent, before every scan-derived (DirAdded/FileAdded) event of the
initial scan; in particular it never follows the final scan-derived
event. -/
theorem c5_ready_before_scan (env : Env) (reg : List (String × String))
    (id path : String)
    (hok : (add_watch env reg id path).result = Except.ok ()) :
    ∃ rest, (add_watch env reg id path).events = Event.Ready id :: rest ∧
      ∀ e ∈ rest, isScanAdd e = true :=
  ⟨scan_existing_files id path (env.rootReadable path) (env.rootEntries path),
   (add_watch_ok_shape env reg id path hok).1,
   scan_existing_only_adds id path (env.rootReadable path)
     (env.rootEntries path)⟩

/-- C5 witness: a concrete successful add emits Ready first, via the
claim theorem. -/
theorem c5_ready_before_scan_witness :
    ∃ rest, (add_watch envAllTrue [] "w" "/r").events =
      Event.Ready "w" :: rest ∧ ∀ e ∈ rest, isScanAdd e = true :=
  c5_ready_before_scan envAllTrue [] "w" "/r" rfl

/-- C6: on a successful add whose root listing is fully readable, the
initial recursive scan emits exactly the spec-mandated depth-first
sequence: DirAdded for every non-hidden directory, FileAdded for every
non-hidden media file, and nothing for hidden entries (not descended
into) or non-media files -- `specScanEntries` is that sequence, written
from the spec's words. -/
theorem c6_initial_scan (env : Env) (reg : List (String × String))
    (id path : String)
    (hok : (add_watch env reg id path).result = Except.ok ())
    (hread : env.rootReadable path = true)
    (hall : allReadable (env.rootEntries path) = true) :
    (add_watch env reg id path).events =
      Event.Ready id :: specScanEntries id path path (env.rootEntries path) := by
  have h := (add_watch_ok_shape env reg id path hok).1
  rw [h, hread]
  have hs := scan_refines_spec id path path (env.rootEntries path) hall
  simp [scan_existing_files, scanRoot, hs]

/-- C6 witness: adding a watch on a directory with one hidden file, one
non-media file and one media file yields Ready followed by exactly one
FileAdded for the media file, via the claim theorem. -/
theorem c6_initial_scan_witness :
    (add_watch envDemo [] "w" "/r").events =
      Event.Ready "w" :: specScanEntries "w" "/r" "/r" demoEntries ∧
    specScanEntries "w" "/r" "/r" demoEntries =
      [Event.FileAdded "w" "/r/clip.mp4" "clip.mp4"] :=
  ⟨c6_initial_scan envDemo [] "w" "/r" rfl rfl
    (by simp [allReadable, demoEntries, envDemo]),
   by simp +decide [specScanEntries, demoEntries]⟩

/-- C10: a duplicate id is reported as Conflict regardless of the state
of the path: the id-uniqueness check precedes all path validation, so
even a duplicate id with a non-existent path yields Conflict, never
NotFound or NotADirectory. -/
theorem c10_conflict_precedence (env : Env) (reg : List (String × String))
    (id path : String) (h : (lookupReg reg id).isSome = true) :
    (add_watch env reg id path).result = Except.error AddError.Conflict := by
  simp [add_watch, h]

/-- C10 witness: re-adding id `a` with a path that does not even exist
still yields Conflict, via the claim theorem. -/
theorem c10_conflict_precedence_witness :
    (add_watch envMissing [("a", "/ok")] "a" "/missing").result =
      Except.error AddError.Conflict :=
  c10_conflict_precedence envMissing [("a", "/ok")] "a" "/missing" rfl


theorem decodeCommand_encode (c : Command) :
    decodeCommand (encodeCommand c) = some c := by
  cases c <;> rfl

theorem decodeWatchInfo_encode (w : WatchInfo) :
    decodeWatchInfo (encodeWatchInfo w) = some w := by
  cases w
  rfl

theorem decodeWatchInfoList_encode (ws : List WatchInfo) :
    decodeWatchInfoList (ws.map encodeWatchInfo) = some ws := by
  induction ws with
  | nil => rfl
  | cons w rest ih =>
    simp [decodeWatchInfoList, decodeWatchInfo_encode, ih]

theorem decodeEvent_encode (e : Event) :
    decodeEvent (encodeEvent e) = some e := by
  cases e with
  | WatchList ws =>
    simp [encodeEvent, decodeEvent, getField, asStr, decodeWatchInfoList_encode]
  | Error msg wid => cases wid <;> rfl
  | _ => rfl

/-- C7: encoding any Command or Event to its wire JSON form and decoding
yields the original value; and the encoded form of an Error event has a
`watch_id` field exactly when the event carries a watch id (the field is
omitted entirely when absent). -/
theorem c7_protocol_roundtrip :
    (∀ c : Command, decodeCommand (encodeCommand c) = some c) ∧
    (∀ e : Event, decodeEvent (encodeEvent e) = some e) ∧
    (∀ (msg : String) (wid : Option String),
      hasKey (encodeEvent (Event.Error msg wid)) "watch_id" = wid.isSome) := by
  refine ⟨decodeCommand_encode, decodeEvent_encode, ?_⟩
  intro msg wid
  cases wid <;> rfl


theorem add_watch_error_shape (env : Env) (reg : List (String × String))
    (id path : String) (e : AddError)
    (hfail : (add_watch env reg id path).result = Except.error e) :
    add_watch env reg id path = ⟨Except.error e, reg, []⟩ := by
  by_cases h1 : (lookupReg reg id).isSome = true <;>
  by_cases h2 : env.pathExists path = true <;>
  by_cases h3 : env.isDir path = true <;>
  by_cases h4 : env.debouncerOk = true <;>
  by_cases h5 : env.watchOk path = true <;>
  simp_all [add_watch]

/-- C8 counterexample: the claim says errors during the initial
directory scan are converted into an Error Domain Event and delivered.
On a watch root whose `read_dir` fails, the scan errors (error flag
true) yet the successful add emits only the Ready event: no Error event
is produced; the io error is merely logged. -/
theorem c8_counterexample :
    (scanRoot "w" "/r" (envUnreadable.rootReadable "/r")
      (envUnreadable.rootEntries "/r")).2 = true ∧
    (add_watch envUnreadable [] "w" "/r").result = Except.ok () ∧
    (add_watch envUnreadable [] "w" "/r").events = [Event.Ready "w"] := by
  refine ⟨rfl, rfl, rfl⟩

/-- C8 amended: protocol decode failures, watch-operation failures
(add and remove), and notification-source runtime errors are each
converted into an Error Domain Event pushed onto the outbound queue;
errors during the initial directory scan, however, are only logged: the
scan never emits an Error event. -/
theorem c8_error_propagation :
    (∀ (env : Env) (reg : List (String × String)) (j : Json),
      decodeCommand j = none →
      (handle_command env reg j).events = [Event.Error "Invalid command" none]) ∧
    (∀ (env : Env) (reg : List (String × String)) (id path : String)
        (e : AddError),
      (add_watch env reg id path).result = Except.error e →
      (handle_command env reg (encodeCommand (Command.AddWatch path id))).events =
        [Event.Error (addErrorMessage id path e) (some id)]) ∧
    (∀ (env : Env) (reg : List (String × String)) (id : String),
      lookupReg reg id = none →
      (handle_command env reg (encodeCommand (Command.RemoveWatch id))).events =
        [Event.Error ("Watch with id " ++ id ++ " not found") (some id)]) ∧
    (∀ (env : Env) (watch_id base emsg : String),
      handle_debounced_events env watch_id base (Except.error emsg) =
        [Event.Error ("Watch error: " ++ emsg) (some watch_id)]) ∧
    (∀ (watch_id base : String) (r : Bool) (ns : List FsNode),
      ∀ e ∈ scan_existing_files watch_id base r ns, isErrorEvent e = false) := by
  refine ⟨?_, ?_, ?_, ?_, ?_⟩
  · intro env reg j h
    simp [handle_command, h]
  · intro env reg id path e hfail
    have hshape := add_watch_error_shape env reg id path e hfail
    simp [handle_command, decodeCommand_encode, hshape]
  · intro env reg id h
    simp [handle_command, decodeCommand_encode, remove_watch, h]
  · intro env watch_id base emsg
    rfl
  · intro watch_id base r ns e he
    have h := scan_existing_only_adds watch_id base r ns e he
    cases e <;> simp_all [isScanAdd, isErrorEvent]

/-- C8 witness: a notification-source runtime error becomes an Error
event tagged with the watch id, and a malformed command becomes an
untagged Error event, via the amended theorem at concrete inputs. -/
theorem c8_error_propagation_witness :
    handle_debounced_events envAllTrue "w" "/r" (Except.error "boom") =
      [Event.Error "Watch error: boom" (some "w")] ∧
    (handle_command envAllTrue [] (Json.str "garbage")).events =
      [Event.Error "Invalid command" none] :=
  ⟨(c8_error_propagation.2.2.2.1 envAllTrue "w" "/r" "boom").trans (by decide),
   c8_error_propagation.1 envAllTrue [] (Json.str "garbage") rfl⟩


theorem lookupReg_eq_none_of_not_mem (reg : List (String × String))
    (id : String) (h : id ∉ reg.map Prod.fst) : lookupReg reg id = none := by
  induction reg with
  | nil => rfl
  | cons hd tl ih =>
    obtain ⟨i, p⟩ := hd
    rw [List.map_cons] at h
    have h1 : i ≠ id := fun he => h (by rw [he]; exact List.mem_cons_self id _)
    have h2 : id ∉ tl.map Prod.fst := fun hm => h (List.mem_cons_of_mem i hm)
    have hne : (i == id) = false := by simpa using h1
    simp [lookupReg, hne]
    exact ih h2

theorem lookupReg_removeKey (reg : List (String × String)) (id : String)
    (hnd : (reg.map Prod.fst).Nodup) :
    lookupReg (removeKey reg id) id = none := by
  induction reg with
  | nil => rfl
  | cons hd tl ih =>
    obtain ⟨i, p⟩ := hd
    rw [List.map_cons] at hnd
    have hnd1 : i ∉ tl.map Prod.fst := (List.nodup_cons.mp hnd).1
    have hnd2 : (tl.map Prod.fst).Nodup := (List.nodup_cons.mp hnd).2
    by_cases h : (i == id) = true
    · have hiq : i = id := by simpa using h
      subst hiq
      simp [removeKey]
      exact lookupReg_eq_none_of_not_mem tl i hnd1
    · have hne : (i == id) = false := by simpa using h
      simp [removeKey, hne, lookupReg]
      exact ih hnd2

/-- C9 counterexample: the claim says buffered callback results whose
watch id is no longer in the registry are dropped at the delivery
boundary.  After removing watch A the registry is empty, yet the
delivery loop still serialises and sends a buffered FileAdded tagged A:
the loop never consults the registry. -/
theorem c9_counterexample :
    (remove_watch [("A", "/r")] "A").1 = Except.ok () ∧
    (remove_watch [("A", "/r")] "A").2 = [] ∧
    event_sender_loop [Event.FileAdded "A" "/r/clip.mp4" "clip.mp4"] =
      [encodeEvent (Event.FileAdded "A" "/r/clip.mp4" "clip.mp4")] ∧
    event_sender_loop [Event.FileAdded "A" "/r/clip.mp4" "clip.mp4"] ≠ [] := by
  refine ⟨rfl, rfl, rfl, ?_⟩
  simp [event_sender_loop]

/-- C9 amended: `remove_watch` removes the id from the registry (and
drops the subscription, so no new callback results for that id are
produced after it returns), but the delivery loop forwards every event
already buffered in the queue regardless of registry membership --
nothing is dropped at the delivery boundary. -/
theorem c9_removal_vs_delivery (reg : List (String × String)) (id : String)
    (hnd : (reg.map Prod.fst).Nodup) (q : List Event) (e : Event)
    (hmem : e ∈ q) :
    lookupReg (remove_watch reg id).2 id = none ∧
    encodeEvent e ∈ event_sender_loop q := by
  constructor
  · rcases hl : lookupReg reg id with _ | p
    · simp [remove_watch, hl]
    · simp [remove_watch, hl]
      exact lookupReg_removeKey reg id hnd
  · simp [event_sender_loop]
    exact ⟨e, hmem, rfl⟩

/-- C9 amended witness: via the amended theorem at a concrete registry
and queue, after removing watch B the id resolves to nothing, yet the
buffered FileRemoved tagged B is still among the delivered frames. -/
theorem c9_removal_vs_delivery_witness :
    lookupReg (remove_watch [("B", "/media")] "B").2 "B" = none ∧
    encodeEvent (Event.FileRemoved "B" "/media/x.wav" "x.wav") ∈
      event_sender_loop [Event.FileRemoved "B" "/media/x.wav" "x.wav"] :=
  c9_removal_vs_delivery [("B", "/media")] "B" (by decide)
    [Event.FileRemoved "B" "/media/x.wav" "x.wav"]
    (Event.FileRemoved "B" "/media/x.wav" "x.wav") (by decide)

end FolderWatcher
